import Mathlib

/-!
Verification of `importmagicserver.py`, the Python server behind importmagic.el.

The server is a thin EPC glue layer over the external `importmagic` library:
it holds one process-wide `index`, and exposes `build_index`,
`get_unresolved_symbols`, `get_candidates_for_symbol` and
`get_import_statement`.  Python strings are modelled as `List Char`
(`PyStr`), so that the character-level slicing done by the server
(`startswith`, `find`, `s[5:sep]`, ...) is embedded exactly.  The
`importmagic` library itself is not part of this repository's sources; where
its behaviour decides a claim it is modelled from the spec, and each such
definition says so in its doc comment.
-/

namespace ImportMagicServer

/-- A Python string, embedded at the character level. -/
abbrev PyStr := List Char

/-- Character list of a string literal (notation convenience only). -/
def lit (s : String) : PyStr := s.toList

/-- Embedding of the server's `_stringify`: Emacs sends strings as lists of
one-character strings, and the server rebuilds the string with
`''.join(input_param)`. -/
def stringify (input_param : List PyStr) : PyStr := input_param.flatten

/-- Python's `s.startswith(pat)` on character lists. -/
def startswith : PyStr → PyStr → Bool
  | _, [] => true
  | [], _ :: _ => false
  | b :: ss, a :: ps => a == b && startswith ss ps

/-- Python's `s.find(pat)`: index of the first occurrence of `pat` in `s`,
with `none` standing for Python's `-1`. -/
def findSub (pat : PyStr) : PyStr → Option Nat
  | [] => if startswith [] pat then some 0 else none
  | c :: t => if startswith (c :: t) pat then some 0 else (findSub pat t).map (· + 1)

/-- The exceptions of the Python process that are relevant to the server:
`attributeError` is what dereferencing the `None` index raises, and the
remaining constructors stand for the error kinds named by the spec
(`IndexError`, `ParseError` with its source position, `EditError`). -/
inductive PyExc where
  | attributeError
  | indexError
  | parseError (pos : Nat)
  | editError
deriving DecidableEq

/-- One element of the sequence returned by `index.symbol_scores(symbol)`:
a `(score, module, variable)` triple, where `var = none` means the symbol is
the module itself and `var = some v` means `v` is a member of `module`. -/
structure ScoreEntry where
  score : Int
  module : PyStr
  var : Option PyStr
deriving DecidableEq

/-- The built `importmagic.SymbolIndex`, abstracted by the one query the
server performs on it: `symbol_scores`, the score-ranked hit list for a
symbol name (best first). -/
structure SymbolIndex where
  symbol_scores : PyStr → List ScoreEntry

/-- The string the server renders for one `symbol_scores` hit: `import M`
when the hit has no member symbol, `from M import V` when it has one. -/
def renderCandidate (e : ScoreEntry) : PyStr :=
  match e.var with
  | none => lit "import " ++ e.module
  | some v => lit "from " ++ e.module ++ lit " import " ++ v

/-- The accumulation loop of `get_candidates_for_symbol`: the Python code
appends each rendered hit to a deque and returns it as a list. -/
def candidatesLoop (candidates : List PyStr) : List ScoreEntry → List PyStr
  | [] => candidates
  | e :: rest => candidatesLoop (candidates ++ [renderCandidate e]) rest

/-- Embedding of the server's `get_candidates_for_symbol`: stringify the
vararg, query `index.symbol_scores`, render each hit in order. -/
def get_candidates_for_symbol (idx : SymbolIndex) (symbol : List PyStr) : List PyStr :=
  candidatesLoop [] (idx.symbol_scores (stringify symbol))

/-- The server's `get_candidates_for_symbol` as seen by the EPC caller,
with the process-wide `index` made explicit: the module-level `index` is
initialised to `None`, and `index.symbol_scores` on `None` raises
`AttributeError`. -/
def get_candidates_server (index : Option SymbolIndex) (symbol : List PyStr) :
    Except PyExc (List PyStr) :=
  match index with
  | none => .error .attributeError
  | some idx => .ok (get_candidates_for_symbol idx symbol)

/-- The action the server takes on the `Imports` object after parsing the
chosen suggestion string: `add_import`, `add_import_from`, or nothing at
all (the fall-through when the string matches neither form). -/
inductive ImportAction where
  | addImport (module : PyStr)
  | addImportFrom (module : PyStr) (name : PyStr)
  | noAction
deriving DecidableEq

/-- The suggestion-string parsing embedded from `get_import_statement`:
if the string starts with `import ` the module is `s[7:]`; otherwise
`separator = s.find(' import ')`, the module is `s[5:separator]` and the
symbol is `s[separator+8:]`, and when `find` returns `-1` no import is
added at all. -/
def parse_import_statement (s : PyStr) : ImportAction :=
  if startswith s (lit "import ") then
    .addImport (s.drop 7)
  else
    match findSub (lit " import ") s with
    | some sep => .addImportFrom ((s.drop 5).take (sep - 5)) (s.drop (sep + 8))
    | none => .noAction

/-- Modelled from the spec: the mutable `importmagic.importer.Imports`
object (the `importmagic` library is not in this repository's sources),
abstracted as a state type `σ` with exactly the operations the server
invokes on it.  `add_import`/`add_import_from` may raise an edit error
(e.g. on a malformed module path), `get_update` returns the
`(start, end, replacement)` edit for the current state. -/
structure ImporterModel (σ : Type) where
  init : PyStr → σ
  add_import : σ → PyStr → Except PyExc σ
  add_import_from : σ → PyStr → PyStr → Except PyExc σ
  get_update : σ → Int × Int × PyStr

/-- Embedding of the server's `get_import_statement`: stringify the two
varargs, build the `Imports` state from the source, dispatch on the parsed
suggestion (errors raised by the importer propagate, nothing is caught),
and return `imports.get_update()`. -/
def get_import_statement {σ : Type} (M : ImporterModel σ)
    (source_parts import_parts : List PyStr) : Except PyExc (Int × Int × PyStr) :=
  let imports := M.init (stringify source_parts)
  match parse_import_statement (stringify import_parts) with
  | .addImport m => (M.add_import imports m).map M.get_update
  | .addImportFrom m v => (M.add_import_from imports m v).map M.get_update
  | .noAction => .ok (M.get_update imports)

/-- The server's `get_import_statement` as seen by the EPC caller, with the
process-wide `index` explicit: `importmagic.importer.Imports(index, source)`
dereferences the index (modelled from the spec, the library not being in
src), so with the index still `None` the call raises `AttributeError`. -/
def get_import_statement_server {σ : Type} (index : Option SymbolIndex)
    (M : SymbolIndex → ImporterModel σ) (source_parts import_parts : List PyStr) :
    Except PyExc (Int × Int × PyStr) :=
  match index with
  | none => .error .attributeError
  | some idx => get_import_statement (M idx) source_parts import_parts

/-- Modelled from the spec: the result of `importmagic.Scope.from_source`
followed by `find_unresolved_and_unreferenced_symbols` — the unresolved and
unreferenced name sets of one source text. -/
structure Scope where
  unresolved : List PyStr
  unreferenced : List PyStr
deriving DecidableEq

/-- Embedding of the server's `get_unresolved_symbols`, parameterised by
the scope analysis `from_source` (modelled from the spec: parsing fails
with a positioned `ParseError` on syntactically invalid source).  The
server catches nothing, so an analysis error propagates to the caller;
on success it returns `list(unres)`. -/
def get_unresolved_symbols (from_source : PyStr → Except PyExc Scope)
    (source : List PyStr) : Except PyExc (List PyStr) :=
  match from_source (stringify source) with
  | .error e => .error e
  | .ok scope => .ok scope.unresolved

/-- One candidate module file found while walking a root: whether it is
readable, and the module it yields when it is. -/
structure ScanFile where
  readable : Bool
  module : PyStr
deriving DecidableEq

/-- An abstract filesystem: the module files discoverable under a root. -/
abbrev FileSys := PyStr → List ScanFile

/-- The modules successfully scanned under a list of roots: every readable
file under every root, unreadable files skipped. -/
def collectModules (fs : FileSys) (paths : List PyStr) : List PyStr :=
  ((paths.map fs).flatten).filterMap fun f => if f.readable then some f.module else none

/-- Modelled from the spec: `importmagic.SymbolIndex.build_index(paths=...)`
(the library is not in this repository's sources) walks each root in order,
skips per-file failures, and fails only when zero modules were indexed. -/
def specBuildIndex (fs : FileSys) (paths : List PyStr) : Except PyExc (List PyStr) :=
  let mods := collectModules fs paths
  if mods.isEmpty then .error .indexError else .ok mods

/-- Observable outcome of the server's `build_index` handler: the
process-wide index replaced (`ok`), an exception propagating to the EPC
caller (`raised`), or the whole server process terminated (`exited`). -/
inductive BuildResult where
  | ok (modules : List PyStr)
  | raised (e : PyExc)
  | exited (code : Int)
deriving DecidableEq

/-- The path list the server hands to the index build: the vararg `path` is
collapsed by `_stringify` into one string and appended after `sys.path`. -/
def build_fullpath (sysPath : List PyStr) (path : List PyStr) : List PyStr :=
  sysPath ++ [stringify path]

/-- Embedding of the server's `build_index`: build over `build_fullpath`;
any exception of the underlying build is caught by the bare `except:` and
turned into `print(...)` followed by `sys.exit(-1)`. -/
def build_index (fs : FileSys) (sysPath : List PyStr) (path : List PyStr) : BuildResult :=
  match specBuildIndex fs (build_fullpath sysPath path) with
  | .ok mods => .ok mods
  | .error _ => .exited (-1)

/-- The modules held by the process-wide index after a build outcome. -/
def indexedModules : BuildResult → List PyStr
  | .ok mods => mods
  | _ => []

/-- Concrete filesystem for the root-joining counterexample: roots `a` and
`b` each hold a module, and the joined string `ab` holds a third. -/
def fsC1 : FileSys := fun root =>
  if root = lit "a" then [⟨true, lit "amod"⟩]
  else if root = lit "b" then [⟨true, lit "bmod"⟩]
  else if root = lit "ab" then [⟨true, lit "abmod"⟩]
  else []

/-- Concrete filesystem with no discoverable module anywhere. -/
def fsEmpty : FileSys := fun _ => []

/-- Concrete filesystem with one unreadable and one readable file under
root `a`. -/
def fsMix : FileSys := fun root =>
  if root = lit "a" then [⟨false, lit "bad"⟩, ⟨true, lit "good"⟩] else []

/-- Concrete filesystem for the sys.path witness: a module under the
sys.path root `sys` only. -/
def fsSys : FileSys := fun root =>
  if root = lit "sys" then [⟨true, lit "sysmod"⟩] else []

/-- Trivial importer backend: every operation succeeds, the update is the
empty edit. -/
def trivImporter : ImporterModel Unit where
  init _ := ()
  add_import _ _ := .ok ()
  add_import_from _ _ _ := .ok ()
  get_update _ := (0, 0, [])

/-- Importer backend whose add operations always raise an edit error. -/
def errImporter : ImporterModel Unit where
  init _ := ()
  add_import _ _ := .error .editError
  add_import_from _ _ _ := .error .editError
  get_update _ := (0, 0, [])

/-- Concrete scope analysis for the witness: the empty source is rejected
with a positioned parse error, anything else resolves to `x` unresolved. -/
def scopeW : PyStr → Except PyExc Scope := fun s =>
  if s = [] then .error (.parseError 0) else .ok ⟨[lit "x"], []⟩

/-- Concrete index for witnesses: the symbol `os` scores one module hit,
`path` scores one member hit, everything else scores nothing. -/
def idxW : SymbolIndex where
  symbol_scores s :=
    if s = lit "os" then [⟨1, lit "os", none⟩]
    else if s = lit "path" then [⟨1, lit "os", some (lit "path")⟩]
    else []

/-- A second concrete index agreeing with `idxW` on the symbol `os`. -/
def idxW2 : SymbolIndex where
  symbol_scores s := if s = lit "os" then [⟨1, lit "os", none⟩] else []

theorem candidatesLoop_eq (scores : List ScoreEntry) :
    ∀ acc, candidatesLoop acc scores = acc ++ scores.map renderCandidate := by
  induction scores with
  | nil => intro acc; simp [candidatesLoop]
  | cons e rest ih => intro acc; simp [candidatesLoop, ih]

theorem startswith_append_self (p t : PyStr) : startswith (p ++ t) p = true := by
  induction p generalizing t with
  | nil => simp [startswith]
  | cons a p ih => simpa [startswith] using ih t

theorem startswith_space_pattern_false (p : PyStr) (hp : ∀ c ∈ p, c ≠ ' ') :
    ∀ (m r : PyStr), ' ' ∉ m → m ≠ p → startswith (m ++ ' ' :: r) (p ++ [' ']) = false := by
  induction p with
  | nil =>
    intro m r hm hne
    cases m with
    | nil => exact absurd rfl hne
    | cons c m' =>
      have hc : ¬ (' ' = c) := fun h => hm (h ▸ List.mem_cons_self c m')
      simp [startswith, hc]
  | cons a p' ih =>
    intro m r hm hne
    cases m with
    | nil =>
      have ha : ¬ (a = ' ') := hp a (List.mem_cons_self a p')
      simp [startswith, ha]
    | cons c m' =>
      by_cases hac : a = c
      · subst hac
        have h1 : ∀ c ∈ p', c ≠ ' ' := fun x hx => hp x (List.mem_cons_of_mem a hx)
        have h2 : ' ' ∉ m' := fun h => hm (List.mem_cons_of_mem a h)
        have h3 : m' ≠ p' := fun h => hne (by rw [h])
        simpa [startswith] using ih h1 m' r h2 h3
      · simp [startswith, hac]

theorem findSub_pattern_here (pt m v : PyStr) (hm : ' ' ∉ m) :
    findSub (' ' :: pt) (m ++ (' ' :: (pt ++ v))) = some m.length := by
  induction m with
  | nil =>
    show findSub (' ' :: pt) (' ' :: (pt ++ v)) = some 0
    simp [findSub, startswith, startswith_append_self]
  | cons c m' ih =>
    have hc : ¬ (' ' = c) := fun h => hm (h ▸ List.mem_cons_self c m')
    have h2 : ' ' ∉ m' := fun h => hm (List.mem_cons_of_mem c h)
    show findSub (' ' :: pt) (c :: (m' ++ (' ' :: (pt ++ v)))) = some (m'.length + 1)
    rw [findSub]
    simp [startswith, hc, ih h2]

theorem startswith_head_ne (c p₀ : Char) (t pr : PyStr) (h : ¬ (p₀ = c)) :
    startswith (c :: t) (p₀ :: pr) = false := by
  simp [startswith, h]

theorem drop_length_append (l₁ l₂ : PyStr) (n : Nat) (h : l₁.length = n) :
    (l₁ ++ l₂).drop n = l₂ := by
  subst h
  induction l₁ with
  | nil => rfl
  | cons a t ih => exact ih

theorem take_length_append (l₁ l₂ : PyStr) (n : Nat) (h : l₁.length = n) :
    (l₁ ++ l₂).take n = l₁ := by
  subst h
  induction l₁ with
  | nil => rfl
  | cons a t ih => simp [ih]

theorem findSub_shift_nospace (pt a s : PyStr) (ha : ∀ c ∈ a, c ≠ ' ') :
    findSub (' ' :: pt) (a ++ s) = (findSub (' ' :: pt) s).map (· + a.length) := by
  induction a with
  | nil =>
    cases h : findSub (' ' :: pt) s <;> simp [h]
  | cons c a' ih =>
    have hc : ¬ (' ' = c) := fun h => (ha c (List.mem_cons_self c a')) h.symm
    have h1 : ∀ x ∈ a', x ≠ ' ' := fun x hx => ha x (List.mem_cons_of_mem c hx)
    show findSub (' ' :: pt) (c :: (a' ++ s)) = (findSub (' ' :: pt) s).map (· + (a'.length + 1))
    rw [findSub]
    cases h : findSub (' ' :: pt) s
    · simp [startswith, hc, ih h1, h]
    · simp [startswith, hc, ih h1, h]
      omega

theorem findSub_render_from (m v : PyStr) (hm : ' ' ∉ m) (hne : m ≠ lit "import") :
    findSub (lit " import ") (lit "from " ++ m ++ lit " import " ++ v)
      = some (m.length + 5) := by
  have hshape : lit "from " ++ m ++ lit " import " ++ v
      = lit "from" ++ (' ' :: (m ++ (' ' :: (lit "import " ++ v)))) := by
    show ('f' :: 'r' :: 'o' :: 'm' :: ' ' :: ([] : PyStr)) ++ m ++ (' ' :: lit "import ") ++ v
        = ('f' :: 'r' :: 'o' :: 'm' :: ([] : PyStr))
            ++ (' ' :: (m ++ (' ' :: (lit "import " ++ v))))
    simp [List.append_assoc]
  have hpat : lit " import " = ' ' :: lit "import " := rfl
  rw [hshape, hpat, findSub_shift_nospace (lit "import ") (lit "from") _ (by decide)]
  rw [findSub]
  have hsw : startswith (m ++ (' ' :: (lit "import " ++ v))) (lit "import ") = false := by
    have h := startswith_space_pattern_false (lit "import") (by decide) m
      (lit "import " ++ v) hm hne
    rw [show lit "import" ++ [' '] = lit "import " from rfl] at h
    exact h
  have hhere := findSub_pattern_here (lit "import ") m v hm
  simp [startswith, hsw, hhere, show (lit "from").length = 4 from rfl]

theorem parse_render_import (m : PyStr) :
    parse_import_statement (lit "import " ++ m) = .addImport m := by
  unfold parse_import_statement
  simp [startswith_append_self, drop_length_append (lit "import ") m 7 rfl]

theorem parse_render_from (m v : PyStr) (hm : ' ' ∉ m) (hne : m ≠ lit "import") :
    parse_import_statement (lit "from " ++ m ++ lit " import " ++ v)
      = .addImportFrom m v := by
  unfold parse_import_statement
  have h1 : startswith (lit "from " ++ m ++ lit " import " ++ v) (lit "import ") = false :=
    startswith_head_ne 'f' 'i' (lit "rom " ++ m ++ lit " import " ++ v) (lit "mport ")
      (by decide)
  rw [h1]
  simp only [Bool.false_eq_true, if_false, findSub_render_from m v hm hne]
  have hdrop5 : (lit "from " ++ m ++ lit " import " ++ v).drop 5
      = m ++ lit " import " ++ v := by
    rw [List.append_assoc, List.append_assoc]
    rw [drop_length_append (lit "from ") _ 5 rfl]
    rw [List.append_assoc]
  have hdrop13 : (lit "from " ++ m ++ lit " import " ++ v).drop (m.length + 5 + 8) = v := by
    apply drop_length_append
    simp [show (lit "from ").length = 5 from rfl, show (lit " import ").length = 8 from rfl]
    omega
  have htake : (m ++ lit " import " ++ v).take (m.length + 5 - 5) = m := by
    rw [List.append_assoc]
    rw [show m.length + 5 - 5 = m.length from by omega]
    exact take_length_append m _ m.length rfl
  rw [hdrop5, hdrop13, htake]

theorem mem_collectModules (fs : FileSys) (paths : List PyStr) (root : PyStr)
    (hroot : root ∈ paths) (f : ScanFile) (hf : f ∈ fs root) (hr : f.readable = true) :
    f.module ∈ collectModules fs paths := by
  unfold collectModules
  refine List.mem_filterMap.mpr ⟨f, ?_, by simp [hr]⟩
  exact List.mem_flatten.mpr ⟨fs root, List.mem_map.mpr ⟨root, hroot, rfl⟩, hf⟩

theorem build_index_ok_of_mem (fs : FileSys) (sysPath path : List PyStr) (root : PyStr)
    (hroot : root ∈ build_fullpath sysPath path) (f : ScanFile) (hf : f ∈ fs root)
    (hr : f.readable = true) :
    build_index fs sysPath path = .ok (collectModules fs (build_fullpath sysPath path)) ∧
    f.module ∈ collectModules fs (build_fullpath sysPath path) := by
  have hmem := mem_collectModules fs _ root hroot f hf hr
  have hne : (collectModules fs (build_fullpath sysPath path)).isEmpty = false := by
    cases h : collectModules fs (build_fullpath sysPath path) with
    | nil => rw [h] at hmem; cases hmem
    | cons a t => simp
  refine ⟨?_, hmem⟩
  unfold build_index specBuildIndex
  simp [hne]

/-- C1 (counterexample): with roots `a` and `b` supplied to `build_index`,
the module `amod` discoverable under the supplied root `a` does not
contribute to the resulting index — the two arguments are joined into the
single root string `ab`, and only its module `abmod` is indexed. -/
theorem build_index_joins_roots_counterexample :
    fsC1 (lit "a") = [⟨true, lit "amod"⟩] ∧
    build_index fsC1 [] [lit "a", lit "b"] = .ok [lit "abmod"] ∧
    lit "amod" ∉ indexedModules (build_index fsC1 [] [lit "a", lit "b"]) := by
  decide

/-- C1 (amended): every root of the effective path list — `sys.path`
followed by the one string obtained by joining all supplied arguments —
contributes its discoverable readable modules to the built index; the
supplied roots are never walked individually. -/
theorem build_index_joined_root_contributes (fs : FileSys) (sysPath path : List PyStr)
    (root : PyStr) (hroot : root ∈ build_fullpath sysPath path) (f : ScanFile)
    (hf : f ∈ fs root) (hr : f.readable = true) :
    ∃ mods, build_index fs sysPath path = .ok mods ∧ f.module ∈ mods := by
  obtain ⟨h1, h2⟩ := build_index_ok_of_mem fs sysPath path root hroot f hf hr
  exact ⟨_, h1, h2⟩

/-- Witness for C1 (amended) at the joined root `ab` of the call with
arguments `a` and `b`. -/
theorem build_index_joined_root_contributes_witness :
    ∃ mods, build_index fsC1 [] [lit "a", lit "b"] = .ok mods ∧ lit "abmod" ∈ mods :=
  build_index_joined_root_contributes fsC1 [] [lit "a", lit "b"] (lit "ab") (by decide)
    ⟨true, lit "abmod"⟩ (by decide) rfl

/-- C2 (counterexample): when nothing at all can be indexed, the server does
not return or raise `IndexError` to the caller — the bare `except:` catches
the failure and the process is terminated with `sys.exit(-1)`. -/
theorem build_index_failure_exits_counterexample :
    build_index fsEmpty [] [lit "a"] = .exited (-1) ∧
    build_index fsEmpty [] [lit "a"] ≠ .raised .indexError := by
  decide

/-- C2 (amended): a total build failure (zero modules indexed) terminates
the server process with exit status `-1` instead of surfacing `IndexError`;
a failure confined to a single file is skipped (unreadable files are simply
not collected) and the build completes with whatever was scanned; no
exception ever propagates to the EPC caller. -/
theorem build_index_failure_handling (fs : FileSys) (sysPath path : List PyStr) :
    (collectModules fs (build_fullpath sysPath path) = [] →
      build_index fs sysPath path = .exited (-1)) ∧
    (collectModules fs (build_fullpath sysPath path) ≠ [] →
      build_index fs sysPath path
        = .ok (collectModules fs (build_fullpath sysPath path))) ∧
    ∀ e, build_index fs sysPath path ≠ .raised e := by
  refine ⟨?_, ?_, ?_⟩
  · intro h
    unfold build_index specBuildIndex
    simp [h]
  · intro h
    have hne : (collectModules fs (build_fullpath sysPath path)).isEmpty = false := by
      cases hc : collectModules fs (build_fullpath sysPath path) with
      | nil => exact absurd hc h
      | cons a t => simp
    unfold build_index specBuildIndex
    simp [hne]
  · intro e
    unfold build_index specBuildIndex
    cases hc : (collectModules fs (build_fullpath sysPath path)).isEmpty <;> simp [hc]

/-- Witness for C2 (amended): total failure exits the process; one
unreadable file beside a readable one is skipped and the build completes. -/
theorem build_index_failure_handling_witness :
    build_index fsEmpty [lit "sys"] [lit "b"] = .exited (-1) ∧
    build_index fsMix [] [lit "a"] = .ok [lit "good"] := by
  constructor
  · exact (build_index_failure_handling fsEmpty [lit "sys"] [lit "b"]).1 (by decide)
  · have h := (build_index_failure_handling fsMix [] [lit "a"]).2.1 (by decide)
    rw [show collectModules fsMix (build_fullpath [] [lit "a"]) = [lit "good"]
      from by decide] at h
    exact h

/-- C3: the candidate list for a symbol is exactly the score-ranked
`symbol_scores` sequence rendered in order, and every element has one of
the two forms `import M` or `from M import S`. -/
theorem get_candidates_forms_and_order (idx : SymbolIndex) (symbol : List PyStr) :
    get_candidates_for_symbol idx symbol
      = (idx.symbol_scores (stringify symbol)).map renderCandidate ∧
    ∀ c ∈ get_candidates_for_symbol idx symbol,
      (∃ m, c = lit "import " ++ m) ∨ ∃ m s, c = lit "from " ++ m ++ lit " import " ++ s := by
  have h : get_candidates_for_symbol idx symbol
      = (idx.symbol_scores (stringify symbol)).map renderCandidate := by
    unfold get_candidates_for_symbol
    simpa using candidatesLoop_eq _ []
  refine ⟨h, ?_⟩
  intro c hc
  rw [h] at hc
  obtain ⟨e, he, rfl⟩ := List.mem_map.mp hc
  cases hv : e.var with
  | none => exact Or.inl ⟨e.module, by simp [renderCandidate, hv]⟩
  | some v => exact Or.inr ⟨e.module, v, by simp [renderCandidate, hv]⟩

/-- Witness for C3 at a concrete one-hit index. -/
theorem get_candidates_forms_and_order_witness :
    (∃ m, lit "import os" = lit "import " ++ m) ∨
      ∃ m s, lit "import os" = lit "from " ++ m ++ lit " import " ++ s :=
  (get_candidates_forms_and_order idxW [lit "os"]).2 (lit "import os") (by decide)

/-- C4 (counterexample): the module path `import` (a file `import.py` on a
root) renders as `from import import x`, which the edit operation parses
back as module `` (empty) and symbol `import x`, not as the original
(module `import`, symbol `x`) pair. -/
theorem suggestion_roundtrip_counterexample :
    renderCandidate ⟨0, lit "import", some (lit "x")⟩ = lit "from import import x" ∧
    parse_import_statement (lit "from import import x")
      = .addImportFrom (lit "") (lit "import x") ∧
    ImportAction.addImportFrom (lit "") (lit "import x")
      ≠ .addImportFrom (lit "import") (lit "x") := by
  decide

/-- C4 (amended): for every rendered suggestion whose module path contains
no space character and is not the bare word `import`, the edit operation
parses the rendered string back into the same (module, optional symbol)
pair: `import M` as whole-module `M`, `from M import S` as module `M` with
symbol `S`. -/
theorem suggestion_roundtrip (m v : PyStr) (hm : ' ' ∉ m) (hne : m ≠ lit "import") :
    parse_import_statement (renderCandidate ⟨0, m, none⟩) = .addImport m ∧
    parse_import_statement (renderCandidate ⟨0, m, some v⟩) = .addImportFrom m v := by
  constructor
  · show parse_import_statement (lit "import " ++ m) = .addImport m
    exact parse_render_import m
  · show parse_import_statement (lit "from " ++ m ++ lit " import " ++ v)
      = .addImportFrom m v
    exact parse_render_from m v hm hne

/-- Witness for C4 (amended) at the module path `os.path` and symbol
`join`. -/
theorem suggestion_roundtrip_witness :
    parse_import_statement (renderCandidate ⟨0, lit "os.path", none⟩)
      = .addImport (lit "os.path") ∧
    parse_import_statement (renderCandidate ⟨0, lit "os.path", some (lit "join")⟩)
      = .addImportFrom (lit "os.path") (lit "join") :=
  suggestion_roundtrip (lit "os.path") (lit "join") (by decide) (by decide)

/-- C5 (counterexample): a suggestion string matching neither documented
form (`banana`) does not make the edit operation fail with an edit error —
no import is added and the operation still returns the importer's update,
an ordinary edit triple. -/
theorem get_import_statement_malformed_counterexample :
    parse_import_statement (lit "banana") = .noAction ∧
    get_import_statement trivImporter [] [lit "banana"] = .ok (0, 0, []) ∧
    get_import_statement trivImporter [] [lit "banana"] ≠ .error .editError := by
  have h2 : get_import_statement trivImporter [] [lit "banana"] = .ok (0, 0, []) := rfl
  refine ⟨by decide, h2, fun h => ?_⟩
  rw [h2] at h
  exact Except.noConfusion h

/-- C5 (amended): a suggestion matching neither documented form is silently
ignored — the operation returns the update for the untouched import block
instead of failing; an edit error surfaces only when the importer backend
itself raises one on an `import ` or `from  import ` shaped suggestion
(e.g. a malformed module path), and then it propagates verbatim. -/
theorem get_import_statement_suggestion_handling (σ : Type) (M : ImporterModel σ)
    (source_parts import_parts : List PyStr) :
    (parse_import_statement (stringify import_parts) = .noAction →
      get_import_statement M source_parts import_parts
        = .ok (M.get_update (M.init (stringify source_parts)))) ∧
    (∀ m e, parse_import_statement (stringify import_parts) = .addImport m →
      M.add_import (M.init (stringify source_parts)) m = .error e →
      get_import_statement M source_parts import_parts = .error e) ∧
    (∀ m v e, parse_import_statement (stringify import_parts) = .addImportFrom m v →
      M.add_import_from (M.init (stringify source_parts)) m v = .error e →
      get_import_statement M source_parts import_parts = .error e) := by
  refine ⟨?_, ?_, ?_⟩
  · intro h
    simp [get_import_statement, h]
  · intro m e h1 h2
    simp [get_import_statement, h1, h2, Except.map]
  · intro m v e h1 h2
    simp [get_import_statement, h1, h2, Except.map]

/-- Witness for C5 (amended): the unmatched string is ignored even by a
backend that always raises; matched forms let the backend's error through. -/
theorem get_import_statement_suggestion_handling_witness :
    get_import_statement errImporter [] [lit "from os"] = .ok (0, 0, []) ∧
    get_import_statement errImporter [] [lit "import os"] = .error .editError ∧
    get_import_statement errImporter [] [lit "from os import path"] = .error .editError := by
  refine ⟨?_, ?_, ?_⟩
  · exact (get_import_statement_suggestion_handling Unit errImporter [] [lit "from os"]).1
      (by decide)
  · exact (get_import_statement_suggestion_handling Unit errImporter []
      [lit "import os"]).2.1 (lit "os") .editError (by decide) rfl
  · exact (get_import_statement_suggestion_handling Unit errImporter []
      [lit "from os import path"]).2.2 (lit "os") (lit "path") .editError (by decide) rfl

/-- C6: the unresolved-symbol operation surfaces the analyzer's parse error
unchanged (no partial result), and on syntactically valid source returns
exactly the analyzer's unresolved name set. -/
theorem get_unresolved_symbols_spec (f : PyStr → Except PyExc Scope) (source : List PyStr) :
    (∀ e, f (stringify source) = .error e → get_unresolved_symbols f source = .error e) ∧
    (∀ sc, f (stringify source) = .ok sc →
      get_unresolved_symbols f source = .ok sc.unresolved) := by
  constructor
  · intro e he
    simp [get_unresolved_symbols, he]
  · intro sc hsc
    simp [get_unresolved_symbols, hsc]

/-- Witness for C6 at a concrete analyzer: invalid source errors with a
positioned parse error, valid source yields the unresolved names. -/
theorem get_unresolved_symbols_spec_witness :
    get_unresolved_symbols scopeW [] = .error (.parseError 0) ∧
    get_unresolved_symbols scopeW [lit "x"] = .ok [lit "x"] :=
  ⟨(get_unresolved_symbols_spec scopeW []).1 (.parseError 0) rfl,
   (get_unresolved_symbols_spec scopeW [lit "x"]).2 ⟨[lit "x"], []⟩ rfl⟩

/-- C7: candidate ranking is a pure function of the symbol name and the
index snapshot — two calls against indexes whose `symbol_scores` agree on
the queried name return identical ordered output. -/
theorem get_candidates_deterministic (idx₁ idx₂ : SymbolIndex) (symbol : List PyStr)
    (h : idx₁.symbol_scores (stringify symbol) = idx₂.symbol_scores (stringify symbol)) :
    get_candidates_for_symbol idx₁ symbol = get_candidates_for_symbol idx₂ symbol := by
  unfold get_candidates_for_symbol
  rw [h]

/-- Witness for C7 at two concrete indexes agreeing on the symbol `os`. -/
theorem get_candidates_deterministic_witness :
    get_candidates_for_symbol idxW [lit "os"] = get_candidates_for_symbol idxW2 [lit "os"] :=
  get_candidates_deterministic idxW idxW2 [lit "os"] (by decide)

/-- C8: a symbol with zero hits in the built index yields the empty
candidate list, returned normally to the caller rather than an error. -/
theorem get_candidates_empty_on_no_hits (idx : SymbolIndex) (symbol : List PyStr)
    (h : idx.symbol_scores (stringify symbol) = []) :
    get_candidates_server (some idx) symbol = .ok [] := by
  show Except.ok (get_candidates_for_symbol idx symbol) = .ok []
  unfold get_candidates_for_symbol
  rw [h]
  rfl

/-- Witness for C8 at a name absent from the concrete index. -/
theorem get_candidates_empty_on_no_hits_witness :
    get_candidates_server (some idxW) [lit "zzz_not_a_real_symbol"] = .ok [] :=
  get_candidates_empty_on_no_hits idxW [lit "zzz_not_a_real_symbol"] (by decide)

/-- C10: before any build the process-wide index is still `None`, and both
the candidate operation and the edit operation dereference it unguarded —
each call raises an error instead of returning a result. -/
theorem server_ops_before_build_error (σ : Type) (M : SymbolIndex → ImporterModel σ)
    (symbol source_parts import_parts : List PyStr) :
    get_candidates_server none symbol = .error .attributeError ∧
    get_import_statement_server none M source_parts import_parts
      = .error .attributeError :=
  ⟨rfl, rfl⟩

/-- C9: the index build always covers `sys.path` — the effective path list
is `sys.path` with the single joined caller string appended, so modules
under `sys.path` roots are always indexed and the index is never restricted
to the caller-supplied roots. -/
theorem build_index_includes_sys_path (fs : FileSys) (sysPath path : List PyStr)
    (root : PyStr) (hroot : root ∈ sysPath) (f : ScanFile) (hf : f ∈ fs root)
    (hr : f.readable = true) :
    build_fullpath sysPath path = sysPath ++ [stringify path] ∧
    ∃ mods, build_index fs sysPath path = .ok mods ∧ f.module ∈ mods := by
  refine ⟨rfl, ?_⟩
  have hroot' : root ∈ build_fullpath sysPath path := List.mem_append.mpr (Or.inl hroot)
  obtain ⟨h1, h2⟩ := build_index_ok_of_mem fs sysPath path root hroot' f hf hr
  exact ⟨_, h1, h2⟩

/-- Witness for C9: a module under the `sys.path` root `sys` is indexed
although the caller only supplied the root `a`. -/
theorem build_index_includes_sys_path_witness :
    build_fullpath [lit "sys"] [lit "a"] = [lit "sys"] ++ [stringify [lit "a"]] ∧
    ∃ mods, build_index fsSys [lit "sys"] [lit "a"] = .ok mods ∧ lit "sysmod" ∈ mods :=
  build_index_includes_sys_path fsSys [lit "sys"] [lit "a"] (lit "sys") (by decide)
    ⟨true, lit "sysmod"⟩ (by decide) rfl

end ImportMagicServer
